import Mathlib

/-
Verification development for the @auto GraphQL schema-directive plugin
(AutoTransformer).  The definitions below are a shallow embedding of the
final version of the transformer: the directive handler (`fieldHandler`),
the finalization pass (`afterPass`), the input-type rewriting
(`updateInput`), the resolver prepending (`updateResolver`) and the shared
utilities (`getArgValueFromDirective`, `findDirective`, `removeUndefinedValue`,
`isEmpty`).  JavaScript's untyped runtime values (the results of
`valueFromASTUntyped`) are modelled by `JSValue` together with JS truthiness
and strict equality; JS runtime type errors (calling `.map` / `.find` on a
non-array) are modelled by the `runtimeTypeError` constructor.
-/

namespace AutoTransformerSpec

/-- JavaScript runtime values as produced by `valueFromASTUntyped` on GraphQL
literals: strings, booleans, numbers, arrays, plain objects, `null`, and
`undefined` (for an absent argument). -/
inductive JSValue where
  | str (s : String)
  | bool (b : Bool)
  | num (n : Int)
  | list (xs : List JSValue)
  | obj (fields : List (String × JSValue))
  | null
  | undef
deriving Repr

mutual

def JSValue.decEq : (a b : JSValue) → Decidable (a = b)
  | .str a, .str b =>
      if h : a = b then .isTrue (by rw [h]) else .isFalse (by intro hh; cases hh; exact h rfl)
  | .bool a, .bool b =>
      if h : a = b then .isTrue (by rw [h]) else .isFalse (by intro hh; cases hh; exact h rfl)
  | .num a, .num b =>
      if h : a = b then .isTrue (by rw [h]) else .isFalse (by intro hh; cases hh; exact h rfl)
  | .list xs, .list ys =>
      match JSValue.decEqList xs ys with
      | .isTrue h => .isTrue (by rw [h])
      | .isFalse h => .isFalse (by intro hh; cases hh; exact h rfl)
  | .obj xs, .obj ys =>
      match JSValue.decEqObj xs ys with
      | .isTrue h => .isTrue (by rw [h])
      | .isFalse h => .isFalse (by intro hh; cases hh; exact h rfl)
  | .null, .null => .isTrue rfl
  | .undef, .undef => .isTrue rfl
  | .str _, .bool _ | .str _, .num _ | .str _, .list _ | .str _, .obj _
  | .str _, .null | .str _, .undef
  | .bool _, .str _ | .bool _, .num _ | .bool _, .list _ | .bool _, .obj _
  | .bool _, .null | .bool _, .undef
  | .num _, .str _ | .num _, .bool _ | .num _, .list _ | .num _, .obj _
  | .num _, .null | .num _, .undef
  | .list _, .str _ | .list _, .bool _ | .list _, .num _ | .list _, .obj _
  | .list _, .null | .list _, .undef
  | .obj _, .str _ | .obj _, .bool _ | .obj _, .num _ | .obj _, .list _
  | .obj _, .null | .obj _, .undef
  | .null, .str _ | .null, .bool _ | .null, .num _ | .null, .list _
  | .null, .obj _ | .null, .undef
  | .undef, .str _ | .undef, .bool _ | .undef, .num _ | .undef, .list _
  | .undef, .obj _ | .undef, .null => .isFalse (by intro hh; cases hh)

def JSValue.decEqList : (xs ys : List JSValue) → Decidable (xs = ys)
  | [], [] => .isTrue rfl
  | [], _ :: _ => .isFalse (by intro hh; cases hh)
  | _ :: _, [] => .isFalse (by intro hh; cases hh)
  | x :: xs, y :: ys =>
      match JSValue.decEq x y with
      | .isTrue h1 =>
          match JSValue.decEqList xs ys with
          | .isTrue h2 => .isTrue (by rw [h1, h2])
          | .isFalse h2 => .isFalse (by intro hh; injection hh with e1 e2; exact h2 e2)
      | .isFalse h1 => .isFalse (by intro hh; injection hh with e1 e2; exact h1 e1)

def JSValue.decEqObj : (xs ys : List (String × JSValue)) → Decidable (xs = ys)
  | [], [] => .isTrue rfl
  | [], _ :: _ => .isFalse (by intro hh; cases hh)
  | _ :: _, [] => .isFalse (by intro hh; cases hh)
  | (k1, v1) :: xs, (k2, v2) :: ys =>
      if hk : k1 = k2 then
        match JSValue.decEq v1 v2 with
        | .isTrue h1 =>
            match JSValue.decEqObj xs ys with
            | .isTrue h2 => .isTrue (by rw [hk, h1, h2])
            | .isFalse h2 => .isFalse (by intro hh; injection hh with e1 e2; exact h2 e2)
        | .isFalse h1 =>
            .isFalse (by
              intro hh; injection hh with e1 e2
              exact h1 (congrArg Prod.snd e1))
      else
        .isFalse (by
          intro hh; injection hh with e1 e2
          exact hk (congrArg Prod.fst e1))

end

instance : DecidableEq JSValue := JSValue.decEq

/-- JavaScript truthiness: `""`, `false`, `0`, `null`, `undefined` are falsy;
every object and array is truthy. -/
def JSValue.truthy : JSValue → Bool
  | .str s => !s.isEmpty
  | .bool b => b
  | .num n => n != 0
  | .list _ => true
  | .obj _ => true
  | .null => false
  | .undef => false

/-- JavaScript strict equality `===` between two runtime values.  Primitives
compare structurally; arrays and objects compare by reference, and since every
composite value in this code base arises from a fresh AST conversion, two
composite values are modelled as never strictly equal. -/
def jsValueEq : JSValue → JSValue → Bool
  | .str a, .str b => a == b
  | .bool a, .bool b => a == b
  | .num a, .num b => a == b
  | .null, .null => true
  | .undef, .undef => true
  | _, _ => false

/-- JavaScript strict equality `f === v` where `f` is a string primitive:
true exactly when `v` is the same string. -/
def jsStrEq (f : String) (v : JSValue) : Bool :=
  match v with
  | .str s => f == s
  | _ => false

/-- Reading a property of a JS value (`rule.ownerField`): objects yield the
last binding for the key (later literal keys override earlier ones), other
non-nullish values yield `undefined`, and `null`/`undefined` throw a runtime
TypeError (modelled by `none`). -/
def jsGetProp : JSValue → String → Option JSValue
  | .obj fields, k =>
      some ((((fields.reverse).find? (fun kv => kv.1 == k)).map (fun kv => kv.2)).getD .undef)
  | .null, _ => none
  | .undef, _ => none
  | _, _ => (some JSValue.undef : Option JSValue)

/-- JS string conversion used by template-literal interpolation. -/
def JSValue.interp : JSValue → String
  | .str s => s
  | .bool b => if b then "true" else "false"
  | .num n => toString n
  | .null => "null"
  | .undef => "undefined"
  | .list _ => ""
  | .obj _ => "[object Object]"

/-- Whether `needle` occurs as a contiguous run inside `hay`. -/
def charsContain : (hay needle : List Char) → Bool
  | [], needle => needle.isEmpty
  | c :: rest, needle => needle.isPrefixOf (c :: rest) || charsContain rest needle

/-- JavaScript `Array.prototype.includes` / `String.prototype.includes` as the
source calls it with a string argument (`keyFields.includes(currentFieldName)`):
array membership under strict equality for arrays, substring search for
strings, and a runtime TypeError (`none`) when the receiver is any other
(truthy) value, which has no `includes` method. -/
def jsIncludesStr : JSValue → String → Option Bool
  | .list xs, s => some (xs.any (fun v => jsValueEq v (.str s)))
  | .str hay, s => some (charsContain hay.data s.data)
  | _, _ => none

/-! ## GraphQL AST nodes (the fragments of `graphql` the transformer reads) -/

/-- A GraphQL type reference: named type, list wrapper, or non-null wrapper. -/
inductive TypeNode where
  | named (name : String)
  | listOf (t : TypeNode)
  | nonNull (t : TypeNode)
deriving Repr, DecidableEq

/-- `isNonNullType` from graphql-transformer-common: the outermost wrapper is
the non-null marker. -/
def isNonNullType : TypeNode → Bool
  | .nonNull _ => true
  | _ => false

/-- `unwrapNonNull` from graphql-transformer-common: remove exactly the
outermost non-null wrapper, if present. -/
def unwrapNonNull : TypeNode → TypeNode
  | .nonNull t => t
  | t => t

/-- An argument of a directive.  The source always reads an argument through
`valueFromASTUntyped`, so the embedding stores the converted `JSValue`
directly in place of the literal AST node. -/
structure Argument where
  name : String
  value : JSValue
deriving Repr, DecidableEq

/-- A directive occurrence (`@model`, `@key`, `@auth`, `@auto`, ...).  The
`arguments` list is optional exactly as in the AST. -/
structure Directive where
  name : String
  arguments : Option (List Argument)
deriving Repr, DecidableEq

/-- A field definition of an object or interface type. -/
structure FieldDef where
  name : String
  type : TypeNode
deriving Repr, DecidableEq

/-- Whether the owning definition is an object type or an interface type. -/
inductive ParentKind where
  | objectType
  | interfaceType
deriving Repr, DecidableEq

/-- The owning type definition node received by the `field` hook. -/
structure ParentNode where
  kind : ParentKind
  name : String
  directives : Option (List Directive)
deriving Repr, DecidableEq

/-- A field of an input object type.  `makeInputValueDefinition` produces
exactly a name and a type, which is all the transformer ever reads. -/
structure InputValueDef where
  name : String
  type : TypeNode
deriving Repr, DecidableEq

/-- `makeInputValueDefinition` from graphql-transformer-common. -/
def makeInputValueDefinition (name : String) (type : TypeNode) : InputValueDef :=
  ⟨name, type⟩

/-! ## Shared utilities (src/utils.ts) -/

/-- `getArgValueFromDirective(directive, argName, defaultValue)`: the named
argument's converted value, or the supplied default when the directive has no
argument list or no argument of that name. -/
def getArgValueFromDirective (directive : Directive) (argName : String)
    (defaultValue : JSValue) : JSValue :=
  match directive.arguments with
  | none => defaultValue
  | some args =>
      match args.find? (fun a => a.name == argName) with
      | some a => a.value
      | none => defaultValue

/-- `findDirective(node, directiveName)`: the first directive of that name on
the node, if the node has a directive list at all. -/
def findDirective (directives : Option (List Directive)) (directiveName : String) :
    Option Directive :=
  match directives with
  | none => none
  | some ds => ds.find? (fun d => d.name == directiveName)

/-- `removeUndefinedValue(object)`: drop every key whose value is undefined. -/
def removeUndefinedValue (fields : List (String × JSValue)) : List (String × JSValue) :=
  fields.filter (fun kv => kv.2 != JSValue.undef)

/-- `isEmpty(object)`: an array or key list of length zero. -/
def isEmpty (xs : List α) : Bool :=
  xs.length == 0

/-! ## The host registry (`TransformerContext`) -/

/-- An input object type definition held in the host's type registry. -/
structure InputObjectTypeDef where
  name : String
  fields : Option (List InputValueDef)
deriving Repr, DecidableEq

/-- A named type entry of the host registry.  The transformer only ever
distinguishes input object types (`Kind.INPUT_OBJECT_TYPE_DEFINITION`) from
everything else. -/
inductive RegisteredType where
  | inputObject (io : InputObjectTypeDef)
  | otherType (name : String)
deriving Repr, DecidableEq

/-- The name under which a registry entry is stored. -/
def RegisteredType.regName : RegisteredType → String
  | .inputObject io => io.name
  | .otherType n => n

/-- The host's type registry, a name-keyed map modelled as a list. -/
def TypeRegistry := List RegisteredType
deriving Repr, DecidableEq

/-- `ctx.getType(name)`. -/
def getTypeReg (reg : TypeRegistry) (name : String) : Option RegisteredType :=
  List.find? (fun t => t.regName == name) reg

/-- `ctx.putType(node)`: store under the node's own name, replacing the
existing entry of that name or appending a fresh one. -/
def putTypeReg (reg : TypeRegistry) (t : RegisteredType) : TypeRegistry :=
  match reg with
  | [] => [t]
  | u :: us =>
      if u.regName == t.regName then t :: us else u :: putTypeReg us t

/-- A resolver resource: the source reads and writes exactly
`resolver.Properties.RequestMappingTemplate`, so the embedding keeps that one
property. -/
structure Resource where
  requestMappingTemplate : String
deriving Repr, DecidableEq

/-- The host's resource map (`ctx.getResource` / `ctx.setResource`). -/
def ResourceRegistry := List (String × Resource)
deriving Repr, DecidableEq

/-- `ctx.getResource(id)`. -/
def getResourceReg (reg : ResourceRegistry) (id : String) : Option Resource :=
  (List.find? (fun kv => kv.1 == id) reg).map (fun kv => kv.2)

/-- `ctx.setResource(id, resource)`. -/
def setResourceReg (reg : ResourceRegistry) (id : String) (r : Resource) : ResourceRegistry :=
  match reg with
  | [] => [(id, r)]
  | kv :: rest =>
      if kv.1 == id then (id, r) :: rest else kv :: setResourceReg rest id r

/-! ## External naming helpers and template rendering -/

/-- Modelled from the spec: `ModelResourceIDs.ModelCreateInputObjectName`, the
deterministic name of the generated create input (`Create<Type>Input`); the
helper itself lives in the external graphql-transformer-common package. -/
def modelCreateInputObjectName (typeName : String) : String :=
  "Create" ++ typeName ++ "Input"

/-- Modelled from the spec: `ModelResourceIDs.ModelUpdateInputObjectName`, the
deterministic name of the generated update input (`Update<Type>Input`). -/
def modelUpdateInputObjectName (typeName : String) : String :=
  "Update" ++ typeName ++ "Input"

/-- Modelled from the spec: `ResolverResourceIDs.DynamoDBCreateResolverResourceID`,
the registry id of the create-mutation resolver resource of a type (external
graphql-transformer-common helper). -/
def dynamoDBCreateResolverResourceID (typeName : String) : String :=
  "Create" ++ typeName ++ "Resolver"

/-- Modelled from the spec: `ResolverResourceIDs.DynamoDBUpdateResolverResourceID`,
the registry id of the update-mutation resolver resource of a type. -/
def dynamoDBUpdateResolverResourceID (typeName : String) : String :=
  "Update" ++ typeName ++ "Resolver"

/-- A resolver-template statement (graphql-mapping-template `Expression`);
the embedding keeps the rendered statement text. -/
structure Expression where
  code : String
deriving Repr, DecidableEq

/-- `qref(code)` from graphql-mapping-template: a quiet-reference statement
around the given template code. -/
def qref (code : String) : Expression :=
  ⟨"$util.qr(" ++ code ++ ")"⟩

/-- Modelled from the spec: `printBlock(name)(compoundExpression(exprs))` from
the external graphql-mapping-template package renders an ordered statement
list as a single template block with a descriptive banner comment. -/
def printBlockCompound (name : String) (exprs : List Expression) : String :=
  "## " ++ name ++ " **\n" ++ String.intercalate "\n" (exprs.map (fun e => e.code))

/-! ## Errors -/

/-- The error kinds the handler can raise: the two declared transformer error
classes, plus the unclassified JavaScript runtime TypeError that calling a
method of a missing value produces. -/
inductive TransformError where
  | invalidDirectiveError (msg : String)
  | transformerContractError (msg : String)
  | runtimeTypeError (msg : String)
deriving Repr, DecidableEq

/-- Whether an error is the unclassified JS runtime TypeError kind. -/
def TransformError.isRuntimeType : TransformError → Bool
  | .runtimeTypeError _ => true
  | _ => false

instance {ε α : Type} [DecidableEq ε] [DecidableEq α] : DecidableEq (Except ε α) :=
  fun a b =>
    match a, b with
    | .ok x, .ok y =>
        if h : x = y then .isTrue (by rw [h])
        else .isFalse (by intro hh; cases hh; exact h rfl)
    | .error x, .error y =>
        if h : x = y then .isTrue (by rw [h])
        else .isFalse (by intro hh; cases hh; exact h rfl)
    | .ok _, .error _ => .isFalse (by intro hh; cases hh)
    | .error _, .ok _ => .isFalse (by intro hh; cases hh)

/-- Message of the error raised when `@auto` sits on an interface field. -/
def interfaceErrorMessage (parentName fieldName : String) : String :=
  "The @auto directive cannot be placed on an interface field. See " ++ parentName ++ fieldName

/-- Message of the error raised when the owning type lacks `@model`. -/
def modelErrorMessage : String :=
  "Types annotated with @auto must also be annotated with @model."

/-- Message of the error raised when the annotated field is nullable. -/
def contractErrorMessage : String :=
  "@auto directive can only be used on non-nullable type fields"

/-- Message of the error raised when stripping the annotated field would leave
the input type with zero fields. -/
def emptyInputErrorMessage (fieldName typeName : String) : String :=
  "After stripping away version field \"" ++ fieldName ++ "\", the create input for type \"" ++
    typeName ++ "\" cannot be created with 0 fields. Add another field to type \"" ++
    typeName ++ "\" to continue."

/-- Message of the JS TypeError raised by `rules.map` when the `@auth`
directive's `rules` value is not an array. -/
def rulesMapErrorMessage : String :=
  "Cannot read properties of the rules value (reading map)"

/-- Message of the JS TypeError raised by `keyFields.find` when the `fields`
value is truthy but not an array. -/
def keyFieldsFindErrorMessage : String :=
  "keyFields.find is not a function"

/-- Message of the JS TypeError raised by reading `rule.ownerField` on a
nullish rule value. -/
def ruleReadErrorMessage : String :=
  "Cannot read properties of a nullish rule (reading ownerField)"

/-! ## Input-type rewriting (`updateInput`, reached through
`updateCreateInput` / `updateUpdateInput`) -/

/-- `AutoTransformer.updateInput(ctx, inputName, typeName, autoField, nullable)`:
look up the input type; when it exists, is an input object and has a field
list, either relax the annotated field to its nullable counterpart
(`nullable` truthy) or strip it (`nullable` falsy), failing when stripping
would leave zero fields; write the updated node back.  The returned value is
the new type registry, or the raised error. -/
def updateInput (reg : TypeRegistry) (inputName typeName : String)
    (autoField : FieldDef) (nullable : Bool) : Except TransformError TypeRegistry :=
  match getTypeReg reg inputName with
  | some (.inputObject io) =>
      match io.fields with
      | some fs =>
          let fieldsWithoutAutoField := fs.filter (fun f => f.name != autoField.name)
          let fieldsWithNullableAutoField := fs.map (fun f =>
            if f.name == autoField.name then
              makeInputValueDefinition autoField.name (unwrapNonNull autoField.type)
            else f)
          let updatedFields := if nullable then fieldsWithNullableAutoField else fieldsWithoutAutoField
          if updatedFields.length == 0 && !nullable then
            .error (.invalidDirectiveError (emptyInputErrorMessage autoField.name typeName))
          else
            .ok (putTypeReg reg (.inputObject {io with fields := some updatedFields}))
      | none => .ok reg
  | _ => .ok reg

/-! ## Resolver prepending (`updateResolver`) -/

/-- `AutoTransformer.updateResolver(ctx, resolverResourceId, code)`: when the
resource exists, set its request mapping template to
`[code, previous].join('\n\n')` and store it back; otherwise do nothing. -/
def updateResolver (reg : ResourceRegistry) (resolverResourceId code : String) :
    ResourceRegistry :=
  match getResourceReg reg resolverResourceId with
  | none => reg
  | some resolver =>
      setResourceReg reg resolverResourceId
        ⟨code ++ "\n\n" ++ resolver.requestMappingTemplate⟩

/-! ## The per-type fragment record and fragment detection -/

/-- The per-type fragment record: at most one `updatedAt`, one `owner` and one
`__typename` template fragment per owning type. -/
structure TemplateParts where
  updatedAt : Option Expression
  owner : Option Expression
  typename : Option Expression
deriving Repr, DecidableEq

/-- The empty fragment record (`{}`). -/
def TemplateParts.empty : TemplateParts :=
  ⟨none, none, none⟩

/-- The whole `templateParts` accumulator, keyed by owning type name and kept
in insertion order. -/
def TemplatePartsMap := List (String × TemplateParts)
deriving Repr, DecidableEq

/-- `this.templateParts[objectTypeName]` (read). -/
def getTemplateParts (tps : TemplatePartsMap) (objectTypeName : String) :
    Option TemplateParts :=
  (List.find? (fun kv => kv.1 == objectTypeName) tps).map (fun kv => kv.2)

/-- `this.templateParts[objectTypeName] = tp` (write), preserving insertion
order. -/
def putTemplateParts (tps : TemplatePartsMap) (objectTypeName : String)
    (tp : TemplateParts) : TemplatePartsMap :=
  match tps with
  | [] => [(objectTypeName, tp)]
  | kv :: rest =>
      if kv.1 == objectTypeName then (objectTypeName, tp) :: rest
      else kv :: putTemplateParts rest objectTypeName tp

/-- The updated-at fragment: set the resolved updated-at field in the request
input to its caller-supplied value, defaulting to the current ISO-8601 time. -/
def updatedAtFragment (updatedAtName : String) : Expression :=
  qref ("$context.args.input.put(\"" ++ updatedAtName ++
    "\", $util.defaultIfNull($ctx.args.input." ++ updatedAtName ++
    ", $util.time.nowISO8601()))")

/-- The typename fragment: set `__typename` in the request input to the
owning type's name. -/
def typenameFragment (objectTypeName : String) : Expression :=
  qref ("$context.args.input.put(\"__typename\", \"" ++ objectTypeName ++ "\")")

/-- The identity fallback chain of the owner fragment. -/
def identityValueCode : String :=
  "$util.defaultIfNull($ctx.identity.claims.get(\"username\"), " ++
    "$util.defaultIfNull($ctx.identity.claims.get(\"cognito:username\"), \"___xamznone____\"))"

/-- The owner fragment: set the matched owner field in the request input to
its caller-supplied value, defaulting to the caller's identity claims. -/
def ownerFragment (ownerField : String) : Expression :=
  qref ("$context.args.input.put(\"" ++ ownerField ++
    "\", $util.defaultIfNull($ctx.args.input.get(\"" ++ ownerField ++ "\"), " ++
    identityValueCode ++ "))")

/-- The mutable detection flags of one `field` invocation
(`useUpdatedAtField`, `useTypeName`, `useOwner`, `ownerField`). -/
structure DetectFlags where
  useUpdatedAtField : Bool
  useTypeName : Bool
  useOwner : Bool
  ownerField : String
deriving Repr, DecidableEq

/-- The initial flag values (`false`, `false`, `false`, `'owner'`). -/
def initFlags : DetectFlags :=
  ⟨false, false, false, "owner"⟩

/-- `rule.ownerField || 'owner'` for one auth rule; `none` models the JS
TypeError of reading a property of a nullish rule. -/
def ruleOwnerValue (rule : JSValue) : Option JSValue :=
  match jsGetProp rule "ownerField" with
  | none => none
  | some v => some (if v.truthy then v else JSValue.str "owner")

/-- The owner-field-name candidates from the owning type's `@auth` directive:
`rules.map((rule) => rule.ownerField || 'owner')`, an empty set when `@auth`
is absent, and a JS TypeError when the `rules` value is not an array. -/
def computeOwnerFields (directives : Option (List Directive)) :
    Except TransformError (List JSValue) :=
  match findDirective directives "auth" with
  | none => .ok []
  | some authDirective =>
      match getArgValueFromDirective authDirective "rules" JSValue.undef with
      | .list rules =>
          match rules.mapM ruleOwnerValue with
          | some owners => .ok owners
          | none => .error (.runtimeTypeError ruleReadErrorMessage)
      | _ => .error (.runtimeTypeError rulesMapErrorMessage)

/-- The effective updated-at field name: the `timestamps` argument of `@model`
spread over the default `{updatedAt: 'updatedAt'}` after dropping undefined
values; every non-object `timestamps` value leaves the default in place. -/
def resolvedUpdatedAt (timestamps : JSValue) : JSValue :=
  match timestamps with
  | .obj fields =>
      match ((removeUndefinedValue fields).reverse.find? (fun kv => kv.1 == "updatedAt")).map
          (fun kv => kv.2) with
      | some v => v
      | none => .str "updatedAt"
  | _ => .str "updatedAt"

/-- `keyFields.find((field) => ownerFields.includes(field))`: the first key
field that is one of the owner candidates; a JS TypeError when `keyFields` is
not an array. -/
def jsFindOwner (keyFields : JSValue) (ownerFields : List JSValue) :
    Except TransformError (Option JSValue) :=
  match keyFields with
  | .list xs => .ok (xs.find? (fun fld => ownerFields.any (fun ov => jsValueEq ov fld)))
  | _ => .error (.runtimeTypeError keyFieldsFindErrorMessage)

/-- The trailing `currentFieldName === '__typename'` check of one loop
iteration. -/
def typenameCheckStep (currentFieldName : String) (acc : DetectFlags) : DetectFlags :=
  if currentFieldName == "__typename" then {acc with useTypeName := true} else acc

/-- One iteration of the `for (const keyDirective of keyDirectives)` loop:
skip a directive whose `fields` value is falsy, whose `name` value is truthy
(not the primary index) or whose fields do not include the current field;
otherwise set the updated-at flag, the owner flag (when the current field is
the first key field belonging to the owner candidates) or the typename flag. -/
def processKeyDirective (currentFieldName : String) (updatedAtName : JSValue)
    (ownerFields : List JSValue) (acc : DetectFlags) (keyDirective : Directive) :
    Except TransformError DetectFlags :=
  let keyFields := getArgValueFromDirective keyDirective "fields" JSValue.undef
  let isPrimaryIndex := !(getArgValueFromDirective keyDirective "name" JSValue.undef).truthy
  if !keyFields.truthy then .ok acc
  else if !isPrimaryIndex then .ok acc
  else
    match jsIncludesStr keyFields currentFieldName with
    | none => .error (.runtimeTypeError keyFieldsFindErrorMessage)
    | some false => .ok acc
    | some true =>
        if jsStrEq currentFieldName updatedAtName then
          .ok {acc with useUpdatedAtField := true}
        else
          match jsFindOwner keyFields ownerFields with
          | .error e => .error e
          | .ok (some ownerFieldFound) =>
              if jsStrEq currentFieldName ownerFieldFound then
                .ok {acc with useOwner := true, ownerField := currentFieldName}
              else .ok (typenameCheckStep currentFieldName acc)
          | .ok none => .ok (typenameCheckStep currentFieldName acc)

/-- The whole detection loop over the type's `@key` directives. -/
def detectFlags (currentFieldName : String) (updatedAtName : JSValue)
    (ownerFields : List JSValue) : List Directive → DetectFlags →
    Except TransformError DetectFlags
  | [], acc => .ok acc
  | kd :: rest, acc =>
      match processKeyDirective currentFieldName updatedAtName ownerFields acc kd with
      | .error e => .error e
      | .ok acc2 => detectFlags currentFieldName updatedAtName ownerFields rest acc2

/-- The slot-writing tail of the handler: return unchanged when no flag is
set; otherwise create the type's record on first use, then either write the
updated-at slot alone (early return) or write the typename and owner slots as
flagged. -/
def writeFragments (objectTypeName : String) (updatedAtName : JSValue)
    (fl : DetectFlags) (tps : TemplatePartsMap) : TemplatePartsMap :=
  if !fl.useUpdatedAtField && !fl.useTypeName && !fl.useOwner then tps
  else
    let tp := (getTemplateParts tps objectTypeName).getD TemplateParts.empty
    let tp2 :=
      if fl.useUpdatedAtField then
        {tp with updatedAt := some (updatedAtFragment updatedAtName.interp)}
      else
        let tpA :=
          if fl.useTypeName then {tp with typename := some (typenameFragment objectTypeName)}
          else tp
        if fl.useOwner then {tpA with owner := some (ownerFragment fl.ownerField)} else tpA
    putTemplateParts tps objectTypeName tp2

/-! ## The directive handler (`AutoTransformer.field`) and finalization
(`AutoTransformer.after`) -/

/-- The mutable host state threaded through a run: the type registry, the
resolver resource map, and the transformer's own `templateParts` accumulator. -/
structure HostState where
  types : TypeRegistry
  resources : ResourceRegistry
  templateParts : TemplatePartsMap
deriving Repr, DecidableEq

/-- `AutoTransformer.field(parent, fieldDefinition, directive, ctx)`.  The
result pairs the state as left behind by the call with the raised error, if
any: a thrown error leaves every mutation already committed in place. -/
def fieldHandler (parent : ParentNode) (fieldDefinition : FieldDef)
    (directive : Directive) (s : HostState) : HostState × Option TransformError :=
  if parent.kind == ParentKind.interfaceType then
    (s, some (.invalidDirectiveError (interfaceErrorMessage parent.name fieldDefinition.name)))
  else
    match findDirective parent.directives "model" with
    | none => (s, some (.invalidDirectiveError modelErrorMessage))
    | some modelDirective =>
        if !(isNonNullType fieldDefinition.type) then
          (s, some (.transformerContractError contractErrorMessage))
        else
          let objectTypeName := parent.name
          let creatable := (getArgValueFromDirective directive "creatable" (.bool false)).truthy
          let updatable := (getArgValueFromDirective directive "updatable" (.bool false)).truthy
          match updateInput s.types (modelCreateInputObjectName objectTypeName)
              objectTypeName fieldDefinition creatable with
          | .error e => (s, some e)
          | .ok types1 =>
              let s1 : HostState := {s with types := types1}
              match updateInput types1 (modelUpdateInputObjectName objectTypeName)
                  objectTypeName fieldDefinition updatable with
              | .error e => (s1, some e)
              | .ok types2 =>
                  let s2 : HostState := {s1 with types := types2}
                  match parent.directives with
                  | none => (s2, none)
                  | some dirs =>
                      let keyDirectives := dirs.filter (fun d => d.name == "key")
                      match computeOwnerFields parent.directives with
                      | .error e => (s2, some e)
                      | .ok ownerFields =>
                          let updatedAtName := resolvedUpdatedAt
                            (getArgValueFromDirective modelDirective "timestamps" (.obj []))
                          match detectFlags fieldDefinition.name updatedAtName ownerFields
                              keyDirectives initFlags with
                          | .error e => (s2, some e)
                          | .ok fl =>
                              ({s2 with templateParts :=
                                  writeFragments objectTypeName updatedAtName fl s2.templateParts},
                                none)

/-- The create-mutation fragment list built by `after`:
`[templateParts.owner, templateParts.__typename].filter(Boolean)`. -/
def templateForCreateResolver (tp : TemplateParts) : List Expression :=
  [tp.owner, tp.typename].filterMap id

/-- The update-mutation fragment list built by `after`:
`[templateParts.owner, templateParts.updatedAt, templateParts.__typename].filter(Boolean)`. -/
def templateForUpdateResolver (tp : TemplateParts) : List Expression :=
  [tp.owner, tp.updatedAt, tp.typename].filterMap id

/-- `AutoTransformer.after(ctx)`: for each owning type with a recorded
fragment record, render the non-empty create/update fragment lists and prepend
each to the corresponding resolver resource. -/
def afterPass (s : HostState) : HostState :=
  if isEmpty s.templateParts then s
  else
    s.templateParts.foldl (fun st entry =>
      let objectTypeName := entry.1
      let createList := templateForCreateResolver entry.2
      let updateList := templateForUpdateResolver entry.2
      let st1 :=
        if createList.length != 0 then
          {st with resources := (updateResolver st.resources
            (dynamoDBCreateResolverResourceID objectTypeName)
            (printBlockCompound "[@auto] Prepare DynamoDB PutItem Request" createList))}
        else st
      if updateList.length != 0 then
        {st1 with resources := (updateResolver st1.resources
          (dynamoDBUpdateResolverResourceID objectTypeName)
          (printBlockCompound "[@auto] Prepare DynamoDB UpdateItem Request" updateList))}
      else st1) s

/-! ## Derived views of a single invocation, used to state run-level
invariants -/

/-- One directive-handler invocation of a run: the arguments the host passes
to `field`. -/
structure Invocation where
  parent : ParentNode
  fieldDef : FieldDef
  directive : Directive
deriving Repr, DecidableEq

/-- The `@key` directives of the owning type
(`parent.directives?.filter((d) => d.name.value === 'key')`). -/
def keyDirectivesOf (p : ParentNode) : List Directive :=
  match p.directives with
  | none => []
  | some ds => ds.filter (fun d => d.name == "key")

/-- The effective updated-at field name of an owning type, as the handler
resolves it from the type's `@model` directive. -/
def parentUpdatedAtName (p : ParentNode) : JSValue :=
  match findDirective p.directives "model" with
  | some md => resolvedUpdatedAt (getArgValueFromDirective md "timestamps" (.obj []))
  | none => .str "updatedAt"

/-- How many `@key` directives of the owning type designate the primary index
(falsy `name` value). -/
def primaryKeyCount (p : ParentNode) : Nat :=
  (keyDirectivesOf p).countP (fun kd => !(getArgValueFromDirective kd "name" JSValue.undef).truthy)

/-- The three fragment slots of a per-type record. -/
inductive Slot where
  | updatedAtSlot
  | ownerSlot
  | typenameSlot
deriving Repr, DecidableEq

/-- Read one slot of a fragment record. -/
def TemplateParts.slotGet (tp : TemplateParts) : Slot → Option Expression
  | .updatedAtSlot => tp.updatedAt
  | .ownerSlot => tp.owner
  | .typenameSlot => tp.typename

/-- Read one slot of one type's record inside a fragment map. -/
def slotLookup (tps : TemplatePartsMap) (t : String) (sl : Slot) : Option Expression :=
  match getTemplateParts tps t with
  | none => none
  | some tp => tp.slotGet sl

/-- Read one slot of one type's record in the host state. -/
def slotValue (s : HostState) (t : String) (sl : Slot) : Option Expression :=
  slotLookup s.templateParts t sl

/-- Whether a flag set makes the handler's slot-writing tail write a given
slot (the updated-at case returns before the typename/owner writes). -/
def slotCond (fl : DetectFlags) : Slot → Bool
  | .updatedAtSlot => fl.useUpdatedAtField
  | .ownerSlot => !fl.useUpdatedAtField && fl.useOwner
  | .typenameSlot => !fl.useUpdatedAtField && fl.useTypeName

/-- The detection flags an invocation reaches when it passes validation and
its detection stage raises no error; `none` when the handler stops before the
slot-writing tail. -/
def invocationFlags (inv : Invocation) : Option DetectFlags :=
  if inv.parent.kind == ParentKind.interfaceType then none
  else
    match findDirective inv.parent.directives "model" with
    | none => none
    | some _ =>
        if !(isNonNullType inv.fieldDef.type) then none
        else
          match inv.parent.directives with
          | none => none
          | some _ =>
              match computeOwnerFields inv.parent.directives with
              | .error _ => none
              | .ok owners =>
                  match detectFlags inv.fieldDef.name (parentUpdatedAtName inv.parent)
                      owners (keyDirectivesOf inv.parent) initFlags with
                  | .error _ => none
                  | .ok fl => some fl

/-- Whether an invocation's slot-writing tail would write the given slot of
its owning type, were the invocation to complete without error. -/
def invocationWrites (inv : Invocation) (sl : Slot) : Bool :=
  match invocationFlags inv with
  | none => false
  | some fl => slotCond fl sl

/-! ## Helper lemmas about the registry maps -/

theorem getResourceReg_set_same (reg : ResourceRegistry) (id : String) (r : Resource) :
    getResourceReg (setResourceReg reg id r) id = some r := by
  induction reg with
  | nil => simp [setResourceReg, getResourceReg, List.find?]
  | cons kv rest ih =>
      by_cases h : kv.1 == id
      · simp [setResourceReg, h, getResourceReg, List.find?]
      · simp only [setResourceReg, h, if_false]
        simpa [getResourceReg, List.find?, h] using ih

theorem getTemplateParts_put_same (tps : TemplatePartsMap) (n : String) (tp : TemplateParts) :
    getTemplateParts (putTemplateParts tps n tp) n = some tp := by
  induction tps with
  | nil => simp [putTemplateParts, getTemplateParts, List.find?]
  | cons kv rest ih =>
      by_cases h : kv.1 == n
      · simp [putTemplateParts, h, getTemplateParts, List.find?]
      · simp only [putTemplateParts, h, if_false]
        simpa [getTemplateParts, List.find?, h] using ih

theorem getTemplateParts_put_other (tps : TemplatePartsMap) (n : String) (tp : TemplateParts)
    (t : String) (h : t ≠ n) :
    getTemplateParts (putTemplateParts tps n tp) t = getTemplateParts tps t := by
  induction tps with
  | nil =>
      have hnt : (n == t) = false := by
        simp [beq_iff_eq]; exact fun hh => h hh.symm
      simp [putTemplateParts, getTemplateParts, List.find?, hnt]
  | cons kv rest ih =>
      by_cases hk : kv.1 == n
      · have hkv : (kv.1 == t) = false := by
          have hh1 : kv.1 = n := by simpa [beq_iff_eq] using hk
          simp [beq_iff_eq, hh1]; exact fun hh => h hh.symm
        have hnt : (n == t) = false := by
          simp [beq_iff_eq]; exact fun hh => h hh.symm
        simp [putTemplateParts, hk, getTemplateParts, List.find?, hnt, hkv]
      · simp only [putTemplateParts, hk, if_false]
        by_cases hkt : kv.1 == t
        · simp [getTemplateParts, List.find?, hkt]
        · simpa [getTemplateParts, List.find?, hkt] using ih

theorem getTypeReg_put_same (reg : TypeRegistry) (t : RegisteredType) :
    getTypeReg (putTypeReg reg t) t.regName = some t := by
  induction reg with
  | nil => simp [putTypeReg, getTypeReg, List.find?]
  | cons u rest ih =>
      by_cases h : u.regName == t.regName
      · simp [putTypeReg, h, getTypeReg, List.find?]
      · simp only [putTypeReg, h, if_false]
        simpa [getTypeReg, List.find?, h] using ih

/-! ## Claim theorems -/

/-- C9: when the resolver resource exists in the registry, `updateResolver`
sets its request mapping template to the new rendered block, followed by
exactly two newline characters, followed by the previous template text
verbatim as a suffix; when the resource is absent, the registry is returned
entirely unchanged (and the function is total, so no error is raised). -/
theorem updateResolver_prepends_or_noop (reg : ResourceRegistry) (id code : String) :
    (∀ r, getResourceReg reg id = some r →
        updateResolver reg id code =
          setResourceReg reg id ⟨code ++ "\n\n" ++ r.requestMappingTemplate⟩ ∧
        getResourceReg (updateResolver reg id code) id =
          some ⟨code ++ "\n\n" ++ r.requestMappingTemplate⟩) ∧
    (getResourceReg reg id = none → updateResolver reg id code = reg) := by
  constructor
  · intro r hr
    constructor
    · simp [updateResolver, hr]
    · simp [updateResolver, hr, getResourceReg_set_same]
  · intro hr
    simp [updateResolver, hr]

/-- Witness for C9: a one-entry resource registry, updated at its key and
looked up at a missing key. -/
theorem updateResolver_prepends_or_noop_witness :
    getResourceReg (updateResolver [("UpdatePostResolver", ⟨"OLD"⟩)] "UpdatePostResolver" "NEW")
        "UpdatePostResolver" = some ⟨"NEW" ++ "\n\n" ++ "OLD"⟩ ∧
    updateResolver [("UpdatePostResolver", ⟨"OLD"⟩)] "CreatePostResolver" "NEW" =
      [("UpdatePostResolver", ⟨"OLD"⟩)] :=
  ⟨((updateResolver_prepends_or_noop [("UpdatePostResolver", ⟨"OLD"⟩)]
      "UpdatePostResolver" "NEW").1 ⟨"OLD"⟩ (by decide)).2,
   (updateResolver_prepends_or_noop [("UpdatePostResolver", ⟨"OLD"⟩)]
      "CreatePostResolver" "NEW").2 (by decide)⟩

/-- C2: the finalization pass builds the create-mutation fragment list in
exactly the order owner fragment then typename fragment, each present exactly
when its slot is recorded, and independently of `updatedAt`; the
update-mutation fragment list in exactly the order owner, updated-at,
typename, each present exactly when recorded.  (`afterPass` renders exactly
`templateForCreateResolver` and `templateForUpdateResolver` per owning type.) -/
theorem afterFragmentLists_order (tp : TemplateParts) (x : Option Expression) :
    templateForCreateResolver tp = tp.owner.toList ++ tp.typename.toList ∧
    templateForUpdateResolver tp =
      tp.owner.toList ++ tp.updatedAt.toList ++ tp.typename.toList ∧
    templateForCreateResolver {tp with updatedAt := x} = templateForCreateResolver tp := by
  obtain ⟨u, o, t⟩ := tp
  cases u <;> cases o <;> cases t <;>
    simp [templateForCreateResolver, templateForUpdateResolver]

/-- C3: the handler checks its three preconditions in order, first failure
wins: on an interface parent it raises `invalidDirectiveError` whatever else
holds; on an object parent without `@model` it raises
`invalidDirectiveError`; on an object parent with `@model` and a field that
is not non-null it raises `transformerContractError`; and the two error
kinds are distinct. -/
theorem fieldValidation_order :
    (∀ p f d s, p.kind = ParentKind.interfaceType →
        fieldHandler p f d s =
          (s, some (.invalidDirectiveError (interfaceErrorMessage p.name f.name)))) ∧
    (∀ p f d s, p.kind = ParentKind.objectType →
        findDirective p.directives "model" = none →
        fieldHandler p f d s = (s, some (.invalidDirectiveError modelErrorMessage))) ∧
    (∀ p f d s md, p.kind = ParentKind.objectType →
        findDirective p.directives "model" = some md →
        isNonNullType f.type = false →
        fieldHandler p f d s = (s, some (.transformerContractError contractErrorMessage))) ∧
    (∀ m1 m2, TransformError.invalidDirectiveError m1 ≠
        TransformError.transformerContractError m2) := by
  refine ⟨?_, ?_, ?_, ?_⟩
  · intro p f d s h
    simp [fieldHandler, h]
  · intro p f d s hk hm
    simp [fieldHandler, hk, hm]
  · intro p f d s md hk hm hn
    simp [fieldHandler, hk, hm, hn]
  · intro m1 m2 h
    cases h

/-- Witness for C3: the three validation errors at concrete inputs. -/
theorem fieldValidation_order_witness :
    fieldHandler ⟨.interfaceType, "I", none⟩ ⟨"f", .named "String"⟩ ⟨"auto", none⟩ ⟨[], [], []⟩ =
      (⟨[], [], []⟩, some (.invalidDirectiveError (interfaceErrorMessage "I" "f"))) ∧
    fieldHandler ⟨.objectType, "Post", some []⟩ ⟨"f", .named "String"⟩ ⟨"auto", none⟩
        ⟨[], [], []⟩ =
      (⟨[], [], []⟩, some (.invalidDirectiveError modelErrorMessage)) ∧
    fieldHandler ⟨.objectType, "Post", some [⟨"model", none⟩]⟩ ⟨"f", .named "String"⟩
        ⟨"auto", none⟩ ⟨[], [], []⟩ =
      (⟨[], [], []⟩, some (.transformerContractError contractErrorMessage)) :=
  ⟨fieldValidation_order.1 _ _ _ _ rfl,
   fieldValidation_order.2.1 _ _ _ _ rfl (by decide),
   fieldValidation_order.2.2.1 _ _ _ _ ⟨"model", none⟩ rfl (by decide) (by decide)⟩

/-- C7: in the strip branch (`nullable` false), removing the annotated field
from an existing input type raises the directive-misuse error naming the
field and the owning type exactly when the remaining field list is empty, and
otherwise writes the stripped type back without error; the relax branch
(`nullable` true) always succeeds, so the empty-list check never applies
there. -/
theorem updateInput_strip_empty_check (reg : TypeRegistry) (inputName typeName : String)
    (autoField : FieldDef) (io : InputObjectTypeDef) (fs : List InputValueDef)
    (hget : getTypeReg reg inputName = some (.inputObject io))
    (hfs : io.fields = some fs) :
    (fs.filter (fun f => f.name != autoField.name) = [] →
        updateInput reg inputName typeName autoField false =
          .error (.invalidDirectiveError (emptyInputErrorMessage autoField.name typeName))) ∧
    (fs.filter (fun f => f.name != autoField.name) ≠ [] →
        updateInput reg inputName typeName autoField false =
          .ok (putTypeReg reg (.inputObject
            {io with fields := some (fs.filter (fun f => f.name != autoField.name))}))) ∧
    (updateInput reg inputName typeName autoField true =
        .ok (putTypeReg reg (.inputObject {io with fields := some (fs.map (fun f =>
          if f.name == autoField.name then
            makeInputValueDefinition autoField.name (unwrapNonNull autoField.type)
          else f))}))) := by
  refine ⟨?_, ?_, ?_⟩
  · intro h
    simp [updateInput, hget, hfs, h]
  · intro h
    have hlen : ((fs.filter (fun f => f.name != autoField.name)).length == 0) = false := by
      simpa [List.length_eq_zero] using h
    simp [updateInput, hget, hfs, hlen]
  · simp [updateInput, hget, hfs]

/-- Witness for C7: a two-field input strips successfully, a one-field input
raises the empty-input error, and the relax branch succeeds on the one-field
input. -/
theorem updateInput_strip_empty_check_witness :
    updateInput [.inputObject ⟨"UpdatePostInput", some [⟨"v", .named "String"⟩]⟩]
        "UpdatePostInput" "Post" ⟨"v", .nonNull (.named "String")⟩ false =
      .error (.invalidDirectiveError (emptyInputErrorMessage "v" "Post")) ∧
    updateInput [.inputObject ⟨"UpdatePostInput",
          some [⟨"v", .named "String"⟩, ⟨"t", .named "String"⟩]⟩]
        "UpdatePostInput" "Post" ⟨"v", .nonNull (.named "String")⟩ false =
      .ok (putTypeReg [.inputObject ⟨"UpdatePostInput",
          some [⟨"v", .named "String"⟩, ⟨"t", .named "String"⟩]⟩]
        (.inputObject ⟨"UpdatePostInput", some [⟨"t", .named "String"⟩]⟩)) ∧
    updateInput [.inputObject ⟨"UpdatePostInput", some [⟨"v", .named "String"⟩]⟩]
        "UpdatePostInput" "Post" ⟨"v", .nonNull (.named "String")⟩ true =
      .ok (putTypeReg [.inputObject ⟨"UpdatePostInput", some [⟨"v", .named "String"⟩]⟩]
        (.inputObject ⟨"UpdatePostInput", some [⟨"v", .named "String"⟩]⟩)) :=
  ⟨(updateInput_strip_empty_check _ _ _ _
      ⟨"UpdatePostInput", some [⟨"v", .named "String"⟩]⟩ [⟨"v", .named "String"⟩]
      (by decide) (by decide)).1 (by decide),
   (updateInput_strip_empty_check _ _ _ _
      ⟨"UpdatePostInput", some [⟨"v", .named "String"⟩, ⟨"t", .named "String"⟩]⟩
      [⟨"v", .named "String"⟩, ⟨"t", .named "String"⟩]
      (by decide) (by decide)).2.1 (by decide),
   (updateInput_strip_empty_check _ _ _ _
      ⟨"UpdatePostInput", some [⟨"v", .named "String"⟩]⟩ [⟨"v", .named "String"⟩]
      (by decide) (by decide)).2.2⟩

/-! ## C1: input-type rewriting per flag -/

/-- Relaxing preserves the number of fields carrying the annotated name. -/
theorem countP_map_relax (fs : List InputValueDef) (autoField : FieldDef) :
    (fs.map (fun f =>
        if f.name == autoField.name then
          makeInputValueDefinition autoField.name (unwrapNonNull autoField.type)
        else f)).countP (fun f => f.name == autoField.name) =
      fs.countP (fun f => f.name == autoField.name) := by
  induction fs with
  | nil => simp
  | cons f rest ih =>
      simp only [List.map_cons, List.countP_cons, ih]
      by_cases h : f.name = autoField.name <;>
        simp [h, makeInputValueDefinition]

/-- Relaxing leaves every field of a different name unchanged, in place. -/
theorem filter_map_relax (fs : List InputValueDef) (autoField : FieldDef) :
    (fs.map (fun f =>
        if f.name == autoField.name then
          makeInputValueDefinition autoField.name (unwrapNonNull autoField.type)
        else f)).filter (fun f => f.name != autoField.name) =
      fs.filter (fun f => f.name != autoField.name) := by
  induction fs with
  | nil => simp
  | cons f rest ih =>
      simp only [List.map_cons, List.filter_cons, ih]
      by_cases h : f.name = autoField.name <;>
        simp [h, makeInputValueDefinition]

/-- After relaxing, every field carrying the annotated name is exactly the
nullable counterpart built by `makeInputValueDefinition`. -/
theorem mem_map_relax (fs : List InputValueDef) (autoField : FieldDef) :
    ∀ g ∈ fs.map (fun f =>
        if f.name == autoField.name then
          makeInputValueDefinition autoField.name (unwrapNonNull autoField.type)
        else f), g.name = autoField.name →
      g = makeInputValueDefinition autoField.name (unwrapNonNull autoField.type) := by
  intro g hg hname
  obtain ⟨f, hf, rfl⟩ := List.mem_map.1 hg
  by_cases h : f.name == autoField.name
  · simp [h]
  · exfalso
    rw [if_neg (by simpa using h)] at hname
    exact absurd hname (by simpa using h)

/-- No stripped field list contains the annotated name. -/
theorem countP_filter_strip (fs : List InputValueDef) (autoField : FieldDef) :
    (fs.filter (fun f => f.name != autoField.name)).countP
      (fun f => f.name == autoField.name) = 0 := by
  rw [List.countP_eq_zero]
  intro g hg
  have := (List.mem_filter.1 hg).2
  simpa using this

/-- A registry entry found under a name carries that name. -/
theorem getTypeReg_name (reg : TypeRegistry) (n : String) (io : InputObjectTypeDef)
    (h : getTypeReg reg n = some (.inputObject io)) : io.name = n := by
  have := List.find?_some h
  simpa [RegisteredType.regName, beq_iff_eq] using this

/-- C1 counterexample: the claim fails as stated.  The field `createdAt`
passes validation, the generated input type `CreatePostInput` exists in the
registry, and the `creatable` flag is true — yet the registry entry the
invocation leaves behind contains zero fields named `createdAt` (the input
had none to begin with), not exactly one. -/
theorem relaxMissingField_counterexample :
    fieldHandler ⟨.objectType, "Post", some [⟨"model", none⟩]⟩
        ⟨"createdAt", .nonNull (.named "String")⟩
        ⟨"auto", some [⟨"creatable", .bool true⟩]⟩
        ⟨[.inputObject ⟨"CreatePostInput", some [⟨"title", .nonNull (.named "String")⟩]⟩],
          [], []⟩ =
      (⟨[.inputObject ⟨"CreatePostInput", some [⟨"title", .nonNull (.named "String")⟩]⟩],
          [], []⟩, none) ∧
    (getArgValueFromDirective ⟨"auto", some [⟨"creatable", .bool true⟩]⟩ "creatable"
        (.bool false)).truthy = true ∧
    ([(⟨"title", .nonNull (.named "String")⟩ : InputValueDef)].countP
        (fun f => f.name == "createdAt")) = 0 := by
  decide

/-- C1 (amended): for a field that passes validation, when the generated
input type exists in the registry with a field list: if the matching flag is
false and the strip succeeds, the written-back input type contains no field
with the annotated name and all other fields are unchanged; if the flag is
true **and the field list contains the annotated name exactly once** (as
host-generated inputs do), the written-back input type contains exactly one
field with that name, its type is the declared type with the outermost
non-null wrapper removed, and all other fields are unchanged. -/
theorem updateInput_flag_semantics (reg : TypeRegistry) (inputName typeName : String)
    (autoField : FieldDef) (io : InputObjectTypeDef) (fs : List InputValueDef)
    (hget : getTypeReg reg inputName = some (.inputObject io))
    (hfs : io.fields = some fs) :
    (∀ reg2, updateInput reg inputName typeName autoField false = .ok reg2 →
        getTypeReg reg2 inputName = some (.inputObject
          {io with fields := some (fs.filter (fun f => f.name != autoField.name))}) ∧
        (fs.filter (fun f => f.name != autoField.name)).countP
          (fun f => f.name == autoField.name) = 0) ∧
    (fs.countP (fun f => f.name == autoField.name) = 1 →
        (updateInput reg inputName typeName autoField true = .ok (putTypeReg reg
          (.inputObject {io with fields := some (fs.map (fun f =>
            if f.name == autoField.name then
              makeInputValueDefinition autoField.name (unwrapNonNull autoField.type)
            else f))})) ∧
        getTypeReg (putTypeReg reg (.inputObject {io with fields := some (fs.map (fun f =>
            if f.name == autoField.name then
              makeInputValueDefinition autoField.name (unwrapNonNull autoField.type)
            else f))})) inputName = some (.inputObject {io with fields := some (fs.map (fun f =>
            if f.name == autoField.name then
              makeInputValueDefinition autoField.name (unwrapNonNull autoField.type)
            else f))})) ∧
        (fs.map (fun f =>
            if f.name == autoField.name then
              makeInputValueDefinition autoField.name (unwrapNonNull autoField.type)
            else f)).countP (fun f => f.name == autoField.name) = 1 ∧
        (∀ g ∈ fs.map (fun f =>
            if f.name == autoField.name then
              makeInputValueDefinition autoField.name (unwrapNonNull autoField.type)
            else f), g.name = autoField.name →
          g = makeInputValueDefinition autoField.name (unwrapNonNull autoField.type)) ∧
        (fs.map (fun f =>
            if f.name == autoField.name then
              makeInputValueDefinition autoField.name (unwrapNonNull autoField.type)
            else f)).filter (fun f => f.name != autoField.name) =
          fs.filter (fun f => f.name != autoField.name)) := by
  have hname : io.name = inputName := getTypeReg_name reg inputName io hget
  constructor
  · intro reg2 hok
    by_cases hemp : fs.filter (fun f => f.name != autoField.name) = []
    · rw [(updateInput_strip_empty_check reg inputName typeName autoField io fs
        hget hfs).1 hemp] at hok
      cases hok
    · rw [(updateInput_strip_empty_check reg inputName typeName autoField io fs
        hget hfs).2.1 hemp] at hok
      cases hok
      constructor
      · have := getTypeReg_put_same reg (.inputObject
          {io with fields := some (fs.filter (fun f => f.name != autoField.name))})
        simpa [RegisteredType.regName, hname] using this
      · exact countP_filter_strip fs autoField
  · intro hcount
    refine ⟨⟨(updateInput_strip_empty_check reg inputName typeName autoField io fs
        hget hfs).2.2, ?_⟩, ?_, ?_, ?_⟩
    · have := getTypeReg_put_same reg (.inputObject {io with fields := some (fs.map (fun f =>
          if f.name == autoField.name then
            makeInputValueDefinition autoField.name (unwrapNonNull autoField.type)
          else f))})
      simpa [RegisteredType.regName, hname] using this
    · rw [countP_map_relax]
      exact hcount
    · exact mem_map_relax fs autoField
    · exact filter_map_relax fs autoField

/-- Witness for C1 (amended): a create input holding `createdAt: String!` and
`title: String!` relaxed under `creatable = true`, and stripped under the
default flag. -/
theorem updateInput_flag_semantics_witness :
    (getTypeReg (putTypeReg
        [.inputObject ⟨"CreatePostInput",
          some [⟨"createdAt", .nonNull (.named "String")⟩, ⟨"title", .nonNull (.named "String")⟩]⟩]
        (.inputObject ⟨"CreatePostInput",
          some [⟨"createdAt", .named "String"⟩, ⟨"title", .nonNull (.named "String")⟩]⟩))
        "CreatePostInput" = some (.inputObject ⟨"CreatePostInput",
          some [⟨"createdAt", .named "String"⟩, ⟨"title", .nonNull (.named "String")⟩]⟩)) ∧
    ([(⟨"createdAt", .named "String"⟩ : InputValueDef), ⟨"title", .nonNull (.named "String")⟩].countP
        (fun f => f.name == "createdAt") = 1) := by
  have happ := (updateInput_flag_semantics
    [.inputObject ⟨"CreatePostInput",
      some [⟨"createdAt", .nonNull (.named "String")⟩, ⟨"title", .nonNull (.named "String")⟩]⟩]
    "CreatePostInput" "Post" ⟨"createdAt", .nonNull (.named "String")⟩
    ⟨"CreatePostInput",
      some [⟨"createdAt", .nonNull (.named "String")⟩, ⟨"title", .nonNull (.named "String")⟩]⟩
    [⟨"createdAt", .nonNull (.named "String")⟩, ⟨"title", .nonNull (.named "String")⟩]
    (by decide) (by decide)).2 (by decide)
  exact ⟨happ.1.2, happ.2.1⟩

/-! ## C5: commit behaviour on thrown errors -/

/-- C5 counterexample: the claim fails as stated.  Both flags default to
false; the create input `[createdAt, title]` is stripped and committed, then
stripping the update input `[createdAt]` raises the directive-misuse
(empty-input) error — a validation error in the claim's sense — yet the
committed create-input mutation survives in the returned registry. -/
theorem partialCommit_counterexample :
    fieldHandler ⟨.objectType, "Post", some [⟨"model", none⟩]⟩
        ⟨"createdAt", .nonNull (.named "String")⟩ ⟨"auto", none⟩
        ⟨[.inputObject ⟨"CreatePostInput",
            some [⟨"createdAt", .named "String"⟩, ⟨"title", .nonNull (.named "String")⟩]⟩,
          .inputObject ⟨"UpdatePostInput", some [⟨"createdAt", .named "String"⟩]⟩], [], []⟩ =
      (⟨[.inputObject ⟨"CreatePostInput", some [⟨"title", .nonNull (.named "String")⟩]⟩,
          .inputObject ⟨"UpdatePostInput", some [⟨"createdAt", .named "String"⟩]⟩], [], []⟩,
        some (.invalidDirectiveError (emptyInputErrorMessage "createdAt" "Post"))) ∧
    (some (RegisteredType.inputObject ⟨"CreatePostInput",
        some [⟨"title", .nonNull (.named "String")⟩]⟩) ≠
      some (RegisteredType.inputObject ⟨"CreatePostInput",
        some [⟨"createdAt", .named "String"⟩, ⟨"title", .nonNull (.named "String")⟩]⟩)) := by
  decide

/-- C5 (amended): an error thrown by one of the three precondition validation
checks (interface parent, missing `@model`, nullable field) commits nothing:
the handler returns the state exactly as received.  (The directive-misuse
error of the empty-input check is not covered: it can fire after the
create-input mutation has been committed, as the counterexample shows.) -/
theorem validationFailure_no_commit (p : ParentNode) (f : FieldDef) (d : Directive)
    (s : HostState)
    (h : p.kind = ParentKind.interfaceType ∨ findDirective p.directives "model" = none ∨
        isNonNullType f.type = false) :
    (fieldHandler p f d s).1 = s ∧ ((fieldHandler p f d s).2).isSome = true := by
  by_cases hk : p.kind = ParentKind.interfaceType
  · constructor <;> simp [fieldHandler, hk]
  · have hk2 : (p.kind == ParentKind.interfaceType) = false := by
      cases hp : p.kind
      · simp
      · exact absurd hp hk
    rcases h with h | h | h
    · exact absurd h hk
    · constructor <;> simp [fieldHandler, hk2, h]
    · cases hm : findDirective p.directives "model" with
      | none => constructor <;> simp [fieldHandler, hk2, hm]
      | some md => constructor <;> simp [fieldHandler, hk2, hm, h]

/-- Witness for C5 (amended): the interface check at a concrete invocation. -/
theorem validationFailure_no_commit_witness :
    (fieldHandler ⟨.interfaceType, "I", none⟩ ⟨"f", .named "String"⟩ ⟨"auto", none⟩
        ⟨[], [], []⟩).1 = ⟨[], [], []⟩ ∧
    ((fieldHandler ⟨.interfaceType, "I", none⟩ ⟨"f", .named "String"⟩ ⟨"auto", none⟩
        ⟨[], [], []⟩).2).isSome = true :=
  validationFailure_no_commit ⟨.interfaceType, "I", none⟩ ⟨"f", .named "String"⟩
    ⟨"auto", none⟩ ⟨[], [], []⟩ (Or.inl rfl)

/-! ## Structural shape of a handler invocation -/

/-- Inversion of `invocationFlags`: a flag result pins down the owner
candidates and the detection-loop result. -/
theorem invocationFlags_inv (inv : Invocation) (fl : DetectFlags)
    (h : invocationFlags inv = some fl) :
    (inv.parent.kind == ParentKind.interfaceType) = false ∧
    isNonNullType inv.fieldDef.type = true ∧
    ∃ ow, computeOwnerFields inv.parent.directives = Except.ok ow ∧
      detectFlags inv.fieldDef.name (parentUpdatedAtName inv.parent) ow
        (keyDirectivesOf inv.parent) initFlags = Except.ok fl := by
  by_cases hk : (inv.parent.kind == ParentKind.interfaceType) = true
  · rw [invocationFlags, if_pos hk] at h
    cases h
  · have hk2 : (inv.parent.kind == ParentKind.interfaceType) = false := by simpa using hk
    cases hdirs : inv.parent.directives with
    | none =>
        rw [invocationFlags] at h
        simp [hk2, hdirs, findDirective] at h
    | some dirs =>
        cases hm : findDirective (some dirs) "model" with
        | none =>
            rw [invocationFlags] at h
            simp [hk2, hdirs, hm] at h
        | some md =>
            by_cases hn : isNonNullType inv.fieldDef.type
            · cases hof : computeOwnerFields (some dirs) with
              | error e =>
                  rw [invocationFlags] at h
                  simp [hk2, hdirs, hm, hn, hof] at h
              | ok ow =>
                  cases hdf : detectFlags inv.fieldDef.name
                      (parentUpdatedAtName inv.parent) ow (keyDirectivesOf inv.parent)
                      initFlags with
                  | error e =>
                      rw [invocationFlags] at h
                      simp [hk2, hdirs, hm, hn, hof, hdf] at h
                  | ok fl2 =>
                      rw [invocationFlags] at h
                      simp [hk2, hdirs, hm, hn, hof, hdf] at h
                      refine ⟨hk2, hn, ow, rfl, ?_⟩
                      rw [hdf, h]
            · rw [invocationFlags] at h
              have hn2 : (!isNonNullType inv.fieldDef.type) = true := by simpa using hn
              simp [hk2, hdirs, hm, hn2] at h

/-- Either an invocation leaves the fragment record untouched, or it reached
the slot-writing tail with flags `invocationFlags`, and the record it leaves
behind is exactly `writeFragments` of those flags. -/
theorem fieldHandler_shape (p : ParentNode) (f : FieldDef) (d : Directive) (s : HostState) :
    (fieldHandler p f d s).1.templateParts = s.templateParts ∨
    ∃ fl, invocationFlags ⟨p, f, d⟩ = some fl ∧
      (fieldHandler p f d s).1.templateParts =
        writeFragments p.name (parentUpdatedAtName p) fl s.templateParts := by
  by_cases hk : (p.kind == ParentKind.interfaceType) = true
  · left; simp [fieldHandler, hk]
  · have hk2 : (p.kind == ParentKind.interfaceType) = false := by simpa using hk
    cases hm : findDirective p.directives "model" with
    | none => left; simp [fieldHandler, hk2, hm]
    | some md =>
      by_cases hn : isNonNullType f.type
      · cases hc : updateInput s.types (modelCreateInputObjectName p.name) p.name f
            ((getArgValueFromDirective d "creatable" (.bool false)).truthy) with
        | error e => left; simp [fieldHandler, hk2, hm, hn, hc]
        | ok t1 =>
          cases hu : updateInput t1 (modelUpdateInputObjectName p.name) p.name f
              ((getArgValueFromDirective d "updatable" (.bool false)).truthy) with
          | error e => left; simp [fieldHandler, hk2, hm, hn, hc, hu]
          | ok t2 =>
            cases hdirs : p.directives with
            | none =>
                rw [hdirs] at hm
                simp [findDirective] at hm
            | some dirs =>
              rw [hdirs] at hm
              cases hof : computeOwnerFields (some dirs) with
              | error e => left; simp [fieldHandler, hk2, hm, hn, hc, hu, hdirs, hof]
              | ok ow =>
                cases hdf : detectFlags f.name
                    (resolvedUpdatedAt (getArgValueFromDirective md "timestamps" (.obj []))) ow
                    (dirs.filter (fun dd => dd.name == "key")) initFlags with
                | error e =>
                    left
                    simp [fieldHandler, hk2, hm, hn, hc, hu, hdirs, hof, hdf]
                | ok fl =>
                    right
                    refine ⟨fl, ?_, ?_⟩
                    · rw [invocationFlags]
                      have hupd : parentUpdatedAtName p =
                          resolvedUpdatedAt (getArgValueFromDirective md "timestamps"
                            (.obj [])) := by
                        rw [parentUpdatedAtName, hdirs, hm]
                      have hkds : keyDirectivesOf p =
                          dirs.filter (fun dd => dd.name == "key") := by
                        rw [keyDirectivesOf, hdirs]
                      simp [hk2, hm, hn, hdirs, hof, hupd, hkds, hdf]
                    · have hupd : parentUpdatedAtName p =
                          resolvedUpdatedAt (getArgValueFromDirective md "timestamps"
                            (.obj [])) := by
                        rw [parentUpdatedAtName, hdirs, hm]
                      rw [hupd]
                      simp [fieldHandler, hk2, hm, hn, hc, hu, hdirs, hof, hdf]
      · left
        have hn2 : isNonNullType f.type = false := by simpa using hn
        simp [fieldHandler, hk2, hm, hn2]

/-! ## C8: which key directives can trigger fragment recording -/

/-- A loop iteration over a key directive that is skipped (falsy `fields`,
truthy `name`, or fields not including the current field) leaves the flags
unchanged or raises. -/
theorem processKeyDirective_no_trigger (f : String) (u : JSValue) (ow : List JSValue)
    (acc : DetectFlags) (kd : Directive)
    (h : (getArgValueFromDirective kd "name" JSValue.undef).truthy = true ∨
        (getArgValueFromDirective kd "fields" JSValue.undef).truthy = false ∨
        jsIncludesStr (getArgValueFromDirective kd "fields" JSValue.undef) f ≠ some true) :
    processKeyDirective f u ow acc kd = .ok acc ∨
      ∃ e, processKeyDirective f u ow acc kd = .error e := by
  by_cases hf : (getArgValueFromDirective kd "fields" JSValue.undef).truthy = true
  · by_cases hn : (getArgValueFromDirective kd "name" JSValue.undef).truthy = true
    · left; simp [processKeyDirective, hf, hn]
    · have hn2 : (getArgValueFromDirective kd "name" JSValue.undef).truthy = false := by
        simpa using hn
      have hi : jsIncludesStr (getArgValueFromDirective kd "fields" JSValue.undef) f ≠
          some true := by
        rcases h with h | h | h
        · rw [hn2] at h; cases h
        · rw [hf] at h; cases h
        · exact h
      cases hinc : jsIncludesStr (getArgValueFromDirective kd "fields" JSValue.undef) f with
      | none =>
          right
          exact ⟨.runtimeTypeError keyFieldsFindErrorMessage,
            by simp [processKeyDirective, hf, hn2, hinc]⟩
      | some b =>
          cases b with
          | false => left; simp [processKeyDirective, hf, hn2, hinc]
          | true => exact absurd hinc hi
  · left
    have hf2 : (getArgValueFromDirective kd "fields" JSValue.undef).truthy = false := by
      simpa using hf
    simp [processKeyDirective, hf2]

/-- The whole loop over skipped key directives leaves the flags unchanged or
raises. -/
theorem detectFlags_no_trigger (f : String) (u : JSValue) (ow : List JSValue)
    (kds : List Directive) (acc : DetectFlags)
    (h : ∀ kd ∈ kds,
        (getArgValueFromDirective kd "name" JSValue.undef).truthy = true ∨
        (getArgValueFromDirective kd "fields" JSValue.undef).truthy = false ∨
        jsIncludesStr (getArgValueFromDirective kd "fields" JSValue.undef) f ≠ some true) :
    detectFlags f u ow kds acc = .ok acc ∨ ∃ e, detectFlags f u ow kds acc = .error e := by
  induction kds with
  | nil => left; rfl
  | cons kd rest ih =>
      rcases processKeyDirective_no_trigger f u ow acc kd (h kd (by simp)) with hok | ⟨e, herr⟩
      · rcases ih (fun k hk => h k (by simp [hk])) with hok2 | ⟨e, herr2⟩
        · left; simp [detectFlags, hok, hok2]
        · right; exact ⟨e, by simp [detectFlags, hok, herr2]⟩
      · right; exact ⟨e, by simp [detectFlags, herr]⟩

/-- C8 counterexample: the claim fails as stated.  A `@key` directive
carrying the name argument `""` (a falsy value) is still treated as the
primary index, and an updated-at fragment is recorded for the type. -/
theorem namedKeyRecordsFragment_counterexample :
    fieldHandler ⟨.objectType, "Post", some [⟨"model", none⟩,
        ⟨"key", some [⟨"name", .str ""⟩, ⟨"fields", .list [.str "updatedAt"]⟩]⟩]⟩
      ⟨"updatedAt", .nonNull (.named "String")⟩ ⟨"auto", none⟩ ⟨[], [], []⟩ =
      (⟨[], [], [("Post", ⟨some (updatedAtFragment "updatedAt"), none, none⟩)]⟩, none) ∧
    getArgValueFromDirective
        ⟨"key", some [⟨"name", .str ""⟩, ⟨"fields", .list [.str "updatedAt"]⟩]⟩
        "name" JSValue.undef = .str "" ∧
    (JSValue.str "" ≠ JSValue.undef) := by
  decide

/-- C8 (amended): fragment detection evaluates only `@key` directives whose
`name` argument value is falsy (absent, or e.g. the empty string) — the
code's notion of the primary index — and whose `fields` value is truthy and
includes the current field's name; when every key directive of the owning
type has a truthy `name` value, a falsy `fields` value, or fields that do not
include the current field, the invocation records no fragment at all. -/
theorem keyDetection_scope (p : ParentNode) (f : FieldDef) (d : Directive) (s : HostState)
    (h : ∀ kd ∈ keyDirectivesOf p,
        (getArgValueFromDirective kd "name" JSValue.undef).truthy = true ∨
        (getArgValueFromDirective kd "fields" JSValue.undef).truthy = false ∨
        jsIncludesStr (getArgValueFromDirective kd "fields" JSValue.undef) f.name ≠
          some true) :
    (fieldHandler p f d s).1.templateParts = s.templateParts := by
  rcases fieldHandler_shape p f d s with hsame | ⟨fl, hif, hw⟩
  · exact hsame
  · obtain ⟨_, _, ow, _, hdf⟩ := invocationFlags_inv ⟨p, f, d⟩ fl hif
    rcases detectFlags_no_trigger f.name (parentUpdatedAtName p) ow
        (keyDirectivesOf p) initFlags h with hok | ⟨e, herr⟩
    · rw [hok] at hdf
      cases hdf
      rw [hw]
      simp [writeFragments, initFlags]
    · rw [herr] at hdf
      cases hdf

/-- Witness for C8 (amended): a type whose only `@key` directive carries the
truthy name `"byThing"` records nothing for a field listed in its fields. -/
theorem keyDetection_scope_witness :
    (fieldHandler ⟨.objectType, "Post", some [⟨"model", none⟩,
        ⟨"key", some [⟨"name", .str "byThing"⟩, ⟨"fields", .list [.str "updatedAt"]⟩]⟩]⟩
      ⟨"updatedAt", .nonNull (.named "String")⟩ ⟨"auto", none⟩ ⟨[], [], []⟩).1.templateParts =
      (⟨[], [], []⟩ : HostState).templateParts :=
  keyDetection_scope ⟨.objectType, "Post", some [⟨"model", none⟩,
      ⟨"key", some [⟨"name", .str "byThing"⟩, ⟨"fields", .list [.str "updatedAt"]⟩]⟩]⟩
    ⟨"updatedAt", .nonNull (.named "String")⟩ ⟨"auto", none⟩ ⟨[], [], []⟩ (by decide)

/-! ## C10: `@auth` without a `rules` argument -/

/-- C10 counterexample: the claim fails as stated.  The owning type carries
`@auth` with no `rules` argument and the field passes the three validation
checks, yet the invocation throws the directive-misuse (empty-input) error —
raised while stripping the one-field update input, before the auth rules are
ever read — and not a runtime type error. -/
theorem authNoRulesPreempted_counterexample :
    fieldHandler ⟨.objectType, "Post", some [⟨"model", none⟩, ⟨"auth", none⟩]⟩
        ⟨"createdAt", .nonNull (.named "String")⟩ ⟨"auto", none⟩
        ⟨[.inputObject ⟨"UpdatePostInput", some [⟨"createdAt", .named "String"⟩]⟩], [], []⟩ =
      (⟨[.inputObject ⟨"UpdatePostInput", some [⟨"createdAt", .named "String"⟩]⟩], [], []⟩,
        some (.invalidDirectiveError (emptyInputErrorMessage "createdAt" "Post"))) ∧
    findDirective (some [⟨"model", none⟩, (⟨"auth", none⟩ : Directive)]) "auth" =
      some ⟨"auth", none⟩ ∧
    getArgValueFromDirective ⟨"auth", none⟩ "rules" JSValue.undef = JSValue.undef ∧
    ((fieldHandler ⟨.objectType, "Post", some [⟨"model", none⟩, ⟨"auth", none⟩]⟩
        ⟨"createdAt", .nonNull (.named "String")⟩ ⟨"auto", none⟩
        ⟨[.inputObject ⟨"UpdatePostInput", some [⟨"createdAt", .named "String"⟩]⟩],
          [], []⟩).2.map TransformError.isRuntimeType) = some false := by
  decide

/-- C10 (amended): when the owning type carries `@auth` whose `rules`
argument is absent, an `@auto` field that passes the three validation checks
**and whose two input-type mutations complete without error** makes the
handler throw the unclassified runtime type error of calling `.map` on the
missing rules value — not a directive-misuse error, a contract-violation
error, or a silent no-op — with the committed input mutations left in place. -/
theorem authMissingRules_typeError (p : ParentNode) (f : FieldDef) (d : Directive)
    (s : HostState) (md a : Directive) (t1 t2 : TypeRegistry)
    (hk : p.kind = ParentKind.objectType)
    (hm : findDirective p.directives "model" = some md)
    (hn : isNonNullType f.type = true)
    (ha : findDirective p.directives "auth" = some a)
    (hr : getArgValueFromDirective a "rules" JSValue.undef = JSValue.undef)
    (hc : updateInput s.types (modelCreateInputObjectName p.name) p.name f
        ((getArgValueFromDirective d "creatable" (.bool false)).truthy) = .ok t1)
    (hu : updateInput t1 (modelUpdateInputObjectName p.name) p.name f
        ((getArgValueFromDirective d "updatable" (.bool false)).truthy) = .ok t2) :
    fieldHandler p f d s =
      ({s with types := t2}, some (.runtimeTypeError rulesMapErrorMessage)) := by
  have hk2 : (p.kind == ParentKind.interfaceType) = false := by simp [hk]
  cases hdirs : p.directives with
  | none =>
      rw [hdirs] at hm
      simp [findDirective] at hm
  | some dirs =>
      rw [hdirs] at hm ha
      have hof : computeOwnerFields (some dirs) =
          .error (.runtimeTypeError rulesMapErrorMessage) := by
        simp [computeOwnerFields, ha, hr]
      simp [fieldHandler, hk2, hm, hn, hc, hu, hdirs, hof]

/-- Witness for C10 (amended): a concrete type with `@auth` and no rules, on
an empty registry (both input mutations are no-ops). -/
theorem authMissingRules_typeError_witness :
    fieldHandler ⟨.objectType, "Post", some [⟨"model", none⟩, ⟨"auth", none⟩]⟩
        ⟨"createdAt", .nonNull (.named "String")⟩ ⟨"auto", none⟩ ⟨[], [], []⟩ =
      ({ types := [], resources := [], templateParts := [] },
        some (.runtimeTypeError rulesMapErrorMessage)) :=
  authMissingRules_typeError ⟨.objectType, "Post", some [⟨"model", none⟩, ⟨"auth", none⟩]⟩
    ⟨"createdAt", .nonNull (.named "String")⟩ ⟨"auto", none⟩ ⟨[], [], []⟩
    ⟨"model", none⟩ ⟨"auth", none⟩ [] []
    rfl (by decide) (by decide) (by decide) (by decide) (by decide) (by decide)

/-! ## C4: owner-fragment detection -/

/-- C4 counterexample: the claim fails as stated.  The field `owner` passes
validation, is listed by the primary `@key` directive, differs from the
resolved updated-at name, and belongs to the owner-field-name set
`["editors", "owner"]` derived from the `@auth` rules — yet the handler
records nothing, because the first key field belonging to the owner set is
`"editors"`, not the current field. -/
theorem ownerMembership_counterexample :
    fieldHandler ⟨.objectType, "Post", some [⟨"model", none⟩,
        ⟨"key", some [⟨"fields", .list [.str "editors", .str "owner"]⟩]⟩,
        ⟨"auth", some [⟨"rules",
          .list [.obj [("ownerField", .str "editors")], .obj []]⟩]⟩]⟩
      ⟨"owner", .nonNull (.named "ID")⟩ ⟨"auto", none⟩ ⟨[], [], []⟩ = (⟨[], [], []⟩, none) ∧
    computeOwnerFields (some [⟨"model", none⟩,
        ⟨"key", some [⟨"fields", .list [.str "editors", .str "owner"]⟩]⟩,
        ⟨"auth", some [⟨"rules",
          .list [.obj [("ownerField", .str "editors")], .obj []]⟩]⟩]) =
      .ok [.str "editors", .str "owner"] ∧
    ([JSValue.str "editors", JSValue.str "owner"].any
      (fun ov => jsValueEq ov (.str "owner"))) = true ∧
    jsIncludesStr (.list [.str "editors", .str "owner"]) "owner" = some true ∧
    getArgValueFromDirective
      ⟨"key", some [⟨"fields", .list [.str "editors", .str "owner"]⟩]⟩ "name"
      JSValue.undef = JSValue.undef ∧
    jsStrEq "owner" (.str "updatedAt") = false := by
  decide

/-- C4 (amended): a primary `@key` directive whose fields include the current
field sets the owner flag exactly when the current field equals the **first**
element of that directive's fields list belonging to the owner-field-name set
(mere membership of the field's name in the set does not suffice); the
slot-writing tail then records an owner fragment setting that matched field
name in the request input. -/
theorem ownerDetection_firstMatch (f : String) (updName : JSValue)
    (owners : List JSValue) (acc : DetectFlags) (kd : Directive) (kfs : List JSValue)
    (t : String) (tps : TemplatePartsMap)
    (hfields : getArgValueFromDirective kd "fields" JSValue.undef = .list kfs)
    (hname : (getArgValueFromDirective kd "name" JSValue.undef).truthy = false)
    (hincl : kfs.any (fun v => jsValueEq v (.str f)) = true)
    (hupd : jsStrEq f updName = false)
    (hfirst : kfs.find? (fun fld => owners.any (fun ov => jsValueEq ov fld)) = some (.str f))
    (hacc : acc.useUpdatedAtField = false) :
    processKeyDirective f updName owners acc kd =
      .ok {acc with useOwner := true, ownerField := f} ∧
    (getTemplateParts (writeFragments t updName {acc with useOwner := true, ownerField := f}
        tps) t).map (fun tp => tp.owner) = some (some (ownerFragment f)) := by
  constructor
  · have hkf : (JSValue.list kfs).truthy = true := rfl
    have hself : jsStrEq f (.str f) = true := by simp [jsStrEq]
    simp [processKeyDirective, hfields, hkf, hname, hincl, hupd, hfirst, hself,
      jsIncludesStr, jsFindOwner]
  · by_cases ht : acc.useTypeName <;>
      simp [writeFragments, hacc, ht, getTemplateParts_put_same]

/-- Witness for C4 (amended): `owner` is the first key field in the owner set
of `@key(fields: ["owner", "updatedAt"])`, so the owner flag and fragment are
produced. -/
theorem ownerDetection_firstMatch_witness :
    processKeyDirective "owner" (.str "updatedAt") [.str "owner"] initFlags
        ⟨"key", some [⟨"fields", .list [.str "owner", .str "updatedAt"]⟩]⟩ =
      .ok {initFlags with useOwner := true, ownerField := "owner"} ∧
    (getTemplateParts (writeFragments "Post" (.str "updatedAt")
        {initFlags with useOwner := true, ownerField := "owner"} []) "Post").map
      (fun tp => tp.owner) = some (some (ownerFragment "owner")) :=
  ownerDetection_firstMatch "owner" (.str "updatedAt") [.str "owner"] initFlags
    ⟨"key", some [⟨"fields", .list [.str "owner", .str "updatedAt"]⟩]⟩
    [.str "owner", .str "updatedAt"] "Post" []
    (by decide) (by decide) (by decide) (by decide) (by decide) (by decide)

/-! ## C6: each fragment slot is written at most once per run -/

/-- The owner-field candidates of an owning type, as a function of the parent
node alone (empty on an error, which never reaches the slot-writing tail). -/
def parentOwnerFields (p : ParentNode) : List JSValue :=
  match computeOwnerFields p.directives with
  | .ok l => l
  | .error _ => []

theorem jsStrEq_eq (f : String) (v : JSValue) (h : jsStrEq f v = true) :
    v = .str f := by
  cases v with
  | str s =>
      have : f = s := by simpa [jsStrEq] using h
      rw [this]
  | bool b => simp [jsStrEq] at h
  | num n => simp [jsStrEq] at h
  | list xs => simp [jsStrEq] at h
  | obj fields => simp [jsStrEq] at h
  | null => simp [jsStrEq] at h
  | undef => simp [jsStrEq] at h

/-- Exhaustive description of the flag changes of one loop iteration. -/
theorem processKeyDirective_cases (f : String) (u : JSValue) (ow : List JSValue)
    (acc : DetectFlags) (kd : Directive) (acc2 : DetectFlags)
    (h : processKeyDirective f u ow acc kd = .ok acc2) :
    acc2 = acc ∨
    (jsStrEq f u = true ∧ acc2 = {acc with useUpdatedAtField := true}) ∨
    ((getArgValueFromDirective kd "name" JSValue.undef).truthy = false ∧
      jsFindOwner (getArgValueFromDirective kd "fields" JSValue.undef) ow =
        .ok (some (.str f)) ∧
      acc2 = {acc with useOwner := true, ownerField := f}) ∨
    (f = "__typename" ∧ acc2 = {acc with useTypeName := true}) := by
  simp only [processKeyDirective] at h
  cases hkf : (getArgValueFromDirective kd "fields" JSValue.undef).truthy with
  | false =>
      rw [hkf] at h
      simp at h
      exact Or.inl h.symm
  | true =>
      rw [hkf] at h
      cases hpn : (getArgValueFromDirective kd "name" JSValue.undef).truthy with
      | true =>
          rw [hpn] at h
          simp at h
          exact Or.inl h.symm
      | false =>
          rw [hpn] at h
          simp only [Bool.not_true, Bool.not_false, if_false, if_true, ite_true,
            ite_false, Bool.false_eq_true] at h
          cases hinc : jsIncludesStr (getArgValueFromDirective kd "fields" JSValue.undef)
              f with
          | none => rw [hinc] at h; cases h
          | some b =>
              rw [hinc] at h
              cases b with
              | false =>
                  simp at h
                  exact Or.inl h.symm
              | true =>
                  cases hjs : jsStrEq f u with
                  | true =>
                      rw [hjs] at h
                      simp at h
                      exact Or.inr (Or.inl ⟨rfl, h.symm⟩)
                  | false =>
                      rw [hjs] at h
                      simp only [if_false, ite_false, Bool.false_eq_true] at h
                      cases hfind : jsFindOwner
                          (getArgValueFromDirective kd "fields" JSValue.undef) ow with
                      | error e => rw [hfind] at h; cases h
                      | ok found =>
                          rw [hfind] at h
                          cases found with
                          | some v =>
                              dsimp only at h
                              cases hjs2 : jsStrEq f v with
                              | true =>
                                  rw [hjs2] at h
                                  simp at h
                                  have hv := jsStrEq_eq f v hjs2
                                  exact Or.inr (Or.inr (Or.inl ⟨rfl, by rw [hv], h.symm⟩))
                              | false =>
                                  rw [hjs2] at h
                                  simp only [if_false, ite_false, Bool.false_eq_true] at h
                                  simp only [typenameCheckStep] at h
                                  by_cases htn : f == "__typename"
                                  · rw [if_pos htn] at h
                                    simp at h
                                    exact Or.inr (Or.inr (Or.inr
                                      ⟨by simpa using htn, h.symm⟩))
                                  · rw [if_neg htn] at h
                                    simp at h
                                    exact Or.inl h.symm
                          | none =>
                              simp only [typenameCheckStep] at h
                              by_cases htn : f == "__typename"
                              · rw [if_pos htn] at h
                                simp at h
                                exact Or.inr (Or.inr (Or.inr ⟨by simpa using htn, h.symm⟩))
                              · rw [if_neg htn] at h
                                simp at h
                                exact Or.inl h.symm

/-- Where each flag of the detection loop's result can come from: the
accumulator, or an iteration whose trigger condition pins down the current
field's name. -/
theorem detectFlags_origin (f : String) (u : JSValue) (ow : List JSValue)
    (kds : List Directive) (acc fl : DetectFlags)
    (h : detectFlags f u ow kds acc = .ok fl) :
    (fl.useUpdatedAtField = true → acc.useUpdatedAtField = true ∨ jsStrEq f u = true) ∧
    (fl.useOwner = true → acc.useOwner = true ∨ ∃ kd ∈ kds,
        (getArgValueFromDirective kd "name" JSValue.undef).truthy = false ∧
        jsFindOwner (getArgValueFromDirective kd "fields" JSValue.undef) ow =
          .ok (some (.str f))) ∧
    (fl.useTypeName = true → acc.useTypeName = true ∨ f = "__typename") := by
  induction kds generalizing acc with
  | nil =>
      rw [detectFlags] at h
      cases h
      exact ⟨fun hu => Or.inl hu, fun ho => Or.inl ho, fun ht => Or.inl ht⟩
  | cons kd rest ih =>
      rw [detectFlags] at h
      cases hstep : processKeyDirective f u ow acc kd with
      | error e => rw [hstep] at h; cases h
      | ok acc2 =>
          rw [hstep] at h
          have hrest := ih acc2 h
          rcases processKeyDirective_cases f u ow acc kd acc2 hstep with
            hsame | ⟨hcond, hupd⟩ | ⟨hname, hfind, hown⟩ | ⟨htn, hty⟩
          · subst hsame
            refine ⟨fun hu => hrest.1 hu, fun ho => ?_, fun ht => hrest.2.2 ht⟩
            rcases hrest.2.1 ho with hacc | ⟨kd2, hmem, hrest2⟩
            · exact Or.inl hacc
            · exact Or.inr ⟨kd2, List.mem_cons_of_mem kd hmem, hrest2⟩
          · subst hupd
            refine ⟨fun _ => Or.inr hcond, fun ho => ?_, fun ht => ?_⟩
            · rcases hrest.2.1 ho with hacc | ⟨kd2, hmem, hrest2⟩
              · exact Or.inl (by simpa using hacc)
              · exact Or.inr ⟨kd2, List.mem_cons_of_mem kd hmem, hrest2⟩
            · rcases hrest.2.2 ht with hacc | htn
              · exact Or.inl (by simpa using hacc)
              · exact Or.inr htn
          · subst hown
            refine ⟨fun hu => ?_, fun _ => Or.inr ⟨kd, List.mem_cons_self kd rest,
                hname, hfind⟩, fun ht => ?_⟩
            · rcases hrest.1 hu with hacc | hcond
              · exact Or.inl (by simpa using hacc)
              · exact Or.inr hcond
            · rcases hrest.2.2 ht with hacc | htn
              · exact Or.inl (by simpa using hacc)
              · exact Or.inr htn
          · subst hty
            refine ⟨fun hu => ?_, fun ho => ?_, fun _ => Or.inr htn⟩
            · rcases hrest.1 hu with hacc | hcond
              · exact Or.inl (by simpa using hacc)
              · exact Or.inr hcond
            · rcases hrest.2.1 ho with hacc | ⟨kd2, hmem, hrest2⟩
              · exact Or.inl (by simpa using hacc)
              · exact Or.inr ⟨kd2, List.mem_cons_of_mem kd hmem, hrest2⟩

/-- A list with at most one element satisfying `p` has no two distinct such
elements. -/
theorem countP_le_one_unique {α : Type} (l : List α) (p : α → Bool)
    (h : l.countP p ≤ 1) :
    ∀ a ∈ l, ∀ b ∈ l, p a = true → p b = true → a = b := by
  induction l with
  | nil => intro a ha; cases ha
  | cons x xs ih =>
      intro a ha b hb hpa hpb
      rw [List.countP_cons] at h
      cases hpx : p x with
      | true =>
          rw [hpx] at h
          simp at h
          rcases List.mem_cons.1 ha with rfl | ha2
          · rcases List.mem_cons.1 hb with rfl | hb2
            · rfl
            · rw [h b hb2] at hpb; cases hpb
          · rw [h a ha2] at hpa; cases hpa
      | false =>
          rw [hpx] at h
          simp at h
          rcases List.mem_cons.1 ha with rfl | ha2
          · rw [hpa] at hpx; cases hpx
          · rcases List.mem_cons.1 hb with rfl | hb2
            · rw [hpb] at hpx; cases hpx
            · exact ih (by omega) a ha2 b hb2 hpa hpb

/-- What a written slot says about the invocation's field name: the
updated-at slot forces the resolved updated-at name, the typename slot forces
`__typename`, and the owner slot forces the first owner-set member of a
primary key directive's fields. -/
theorem invocationWrites_name (a : Invocation) (sl : Slot)
    (h : invocationWrites a sl = true) :
    (sl = Slot.updatedAtSlot →
      jsStrEq a.fieldDef.name (parentUpdatedAtName a.parent) = true) ∧
    (sl = Slot.typenameSlot → a.fieldDef.name = "__typename") ∧
    (sl = Slot.ownerSlot → ∃ kd ∈ keyDirectivesOf a.parent,
      (getArgValueFromDirective kd "name" JSValue.undef).truthy = false ∧
      jsFindOwner (getArgValueFromDirective kd "fields" JSValue.undef)
        (parentOwnerFields a.parent) = .ok (some (.str a.fieldDef.name))) := by
  rw [invocationWrites] at h
  cases hif : invocationFlags a with
  | none => rw [hif] at h; cases h
  | some fl =>
      rw [hif] at h
      obtain ⟨_, _, ow, how, hdf⟩ := invocationFlags_inv a fl hif
      have howf : parentOwnerFields a.parent = ow := by
        rw [parentOwnerFields, how]
      have horigin := detectFlags_origin a.fieldDef.name (parentUpdatedAtName a.parent)
        ow (keyDirectivesOf a.parent) initFlags fl hdf
      refine ⟨?_, ?_, ?_⟩
      · rintro rfl
        have hu : fl.useUpdatedAtField = true := by simpa [slotCond] using h
        rcases horigin.1 hu with hacc | hcond
        · cases hacc
        · exact hcond
      · rintro rfl
        have ht : fl.useTypeName = true := by
          have := h
          simp [slotCond] at this
          exact this.2
        rcases horigin.2.2 ht with hacc | htn
        · cases hacc
        · exact htn
      · rintro rfl
        have ho : fl.useOwner = true := by
          have := h
          simp [slotCond] at this
          exact this.2
        rcases horigin.2.1 ho with hacc | ⟨kd, hmem, hname, hfind⟩
        · cases hacc
        · exact ⟨kd, hmem, hname, by rw [howf]; exact hfind⟩

/-- Two invocations sharing the owning type node, with at most one primary
key directive on it, cannot both write the same slot unless they carry the
same field name. -/
theorem writes_unique_name (a b : Invocation) (sl : Slot)
    (hpar : a.parent = b.parent) (hkey : primaryKeyCount a.parent ≤ 1)
    (ha : invocationWrites a sl = true) (hb : invocationWrites b sl = true) :
    a.fieldDef.name = b.fieldDef.name := by
  have hna := invocationWrites_name a sl ha
  have hnb := invocationWrites_name b sl hb
  cases sl with
  | updatedAtSlot =>
      have h1 := jsStrEq_eq _ _ (hna.1 rfl)
      have h2 := jsStrEq_eq _ _ (hnb.1 rfl)
      rw [hpar] at h1
      rw [h1] at h2
      injection h2 with h3
  | typenameSlot =>
      rw [hna.2.1 rfl, hnb.2.1 rfl]
  | ownerSlot =>
      obtain ⟨kd1, hm1, hp1, hf1⟩ := hna.2.2 rfl
      obtain ⟨kd2, hm2, hp2, hf2⟩ := hnb.2.2 rfl
      rw [hpar] at hm1 hf1
      have hkey2 : primaryKeyCount b.parent ≤ 1 := by rw [← hpar]; exact hkey
      have hkd : kd1 = kd2 := by
        refine countP_le_one_unique (keyDirectivesOf b.parent)
          (fun kd => !(getArgValueFromDirective kd "name" JSValue.undef).truthy)
          hkey2 kd1 hm1 kd2 hm2 ?_ ?_
        · simp [hp1]
        · simp [hp2]
      rw [hkd] at hf1
      rw [hf1] at hf2
      injection hf2 with h3
      injection h3 with h4
      injection h4 with h5

/-- Under schema well-formedness, at most one invocation of a run writes a
given (type, slot) pair. -/
theorem run_writes_count (run : List Invocation)
    (hwf : run.Pairwise (fun a b => a.parent.name = b.parent.name →
        a.parent = b.parent ∧ a.fieldDef.name ≠ b.fieldDef.name))
    (hkey : ∀ inv ∈ run, primaryKeyCount inv.parent ≤ 1)
    (t : String) (sl : Slot) :
    run.countP (fun inv => inv.parent.name == t && invocationWrites inv sl) ≤ 1 := by
  induction run with
  | nil => simp
  | cons x xs ih =>
      have hx := List.pairwise_cons.1 hwf
      rw [List.countP_cons]
      cases hpx : (x.parent.name == t && invocationWrites x sl) with
      | false =>
          have hrec := ih hx.2 (fun inv hinv => hkey inv (List.mem_cons_of_mem x hinv))
          simpa [hpx] using hrec
      | true =>
          have hzero : xs.countP
              (fun inv => inv.parent.name == t && invocationWrites inv sl) = 0 := by
            rw [List.countP_eq_zero]
            intro b hb hpb
            simp only [Bool.and_eq_true, beq_iff_eq] at hpx hpb
            have hnames : x.parent.name = b.parent.name := by
              rw [hpx.1, hpb.1]
            obtain ⟨hparents, hfields⟩ := hx.1 b hb hnames
            exact hfields (writes_unique_name x b sl hparents
              (hkey x (List.mem_cons_self x xs)) hpx.2 hpb.2)
          simp [hpx, hzero]

/-- The slot-writing tail changes only the slots its flags select, and only
for its own type. -/
theorem writeFragments_frame (n : String) (u : JSValue) (fl : DetectFlags)
    (tps : TemplatePartsMap) (t : String) (sl : Slot)
    (h : slotCond fl sl = false ∨ t ≠ n) :
    slotLookup (writeFragments n u fl tps) t sl = slotLookup tps t sl := by
  by_cases hall : (!fl.useUpdatedAtField && !fl.useTypeName && !fl.useOwner) = true
  · rw [writeFragments, if_pos hall]
  · rw [writeFragments, if_neg hall]
    by_cases ht : t = n
    · subst ht
      rcases h with hcond | hne
      · obtain ⟨fu, ftn, fo, fof⟩ := fl
        cases hg : getTemplateParts tps t with
        | none =>
            cases sl <;> cases fu <;> cases ftn <;> cases fo <;>
              simp_all [slotCond, slotLookup, getTemplateParts_put_same, hg,
                TemplateParts.slotGet, TemplateParts.empty]
        | some tp0 =>
            cases sl <;> cases fu <;> cases ftn <;> cases fo <;>
              simp_all [slotCond, slotLookup, getTemplateParts_put_same, hg,
                TemplateParts.slotGet]
      · exact absurd rfl hne
    · rw [slotLookup, slotLookup, getTemplateParts_put_other _ _ _ _ ht]

/-- An invocation that does not write a slot (or concerns another type)
leaves that slot's value in the host state unchanged. -/
theorem handler_slot_frame (p : ParentNode) (f : FieldDef) (d : Directive) (s : HostState)
    (t : String) (sl : Slot)
    (h : invocationWrites ⟨p, f, d⟩ sl = false ∨ p.name ≠ t) :
    slotValue ((fieldHandler p f d s).1) t sl = slotValue s t sl := by
  rcases fieldHandler_shape p f d s with hsame | ⟨fl, hif, hw⟩
  · rw [slotValue, slotValue, hsame]
  · rw [slotValue, slotValue, hw]
    apply writeFragments_frame
    rcases h with hwr | hne
    · left
      rw [invocationWrites, hif] at hwr
      exact hwr
    · right
      exact fun he => hne he.symm

/-- C6: over any run of handler invocations arising from a well-formed schema
(invocations sharing a type name share the parent node, field names are
unique within a type, and every type carries at most one primary `@key`
directive, all guaranteed by the host and its schema validation), each of
the three slots of each owning type's fragment record is written by at most
one invocation of the run; moreover, an invocation writes a slot of a type
only when `invocationWrites` says so — every other (type, slot) value of the
host state is left unchanged by `fieldHandler`. -/
theorem slotsWrittenOnce (run : List Invocation)
    (hwf : run.Pairwise (fun a b => a.parent.name = b.parent.name →
        a.parent = b.parent ∧ a.fieldDef.name ≠ b.fieldDef.name))
    (hkey : ∀ inv ∈ run, primaryKeyCount inv.parent ≤ 1) :
    (∀ t sl, run.countP
        (fun inv => inv.parent.name == t && invocationWrites inv sl) ≤ 1) ∧
    (∀ p f d s t sl, (invocationWrites ⟨p, f, d⟩ sl = false ∨ p.name ≠ t) →
        slotValue ((fieldHandler p f d s).1) t sl = slotValue s t sl) :=
  ⟨fun t sl => run_writes_count run hwf hkey t sl,
   fun p f d s t sl h => handler_slot_frame p f d s t sl h⟩

/-- The owning type of the witness run for C6: a primary key over `owner` and
`updatedAt`, with two auth rules. -/
def runWitnessParent : ParentNode :=
  ⟨.objectType, "Post", some [⟨"model", none⟩,
    ⟨"key", some [⟨"fields", .list [.str "owner", .str "updatedAt"]⟩]⟩,
    ⟨"auth", some [⟨"rules",
      .list [.obj [], .obj [("ownerField", .str "editors")]]⟩]⟩]⟩

/-- The witness run for C6: the two `@auto` fields of the type, visited once
each. -/
def runWitness : List Invocation :=
  [⟨runWitnessParent, ⟨"owner", .nonNull (.named "ID")⟩, ⟨"auto", none⟩⟩,
   ⟨runWitnessParent, ⟨"updatedAt", .nonNull (.named "String")⟩, ⟨"auto", none⟩⟩]

/-- Witness for C6: the owner slot of `Post` is written at most once over the
two-invocation run. -/
theorem slotsWrittenOnce_witness :
    runWitness.countP
      (fun inv => inv.parent.name == "Post" && invocationWrites inv Slot.ownerSlot) ≤ 1 :=
  (slotsWrittenOnce runWitness (by decide) (by decide)).1 "Post" Slot.ownerSlot

end AutoTransformerSpec
